import Mathlib

/-!
Shallow embedding of `src/main.ts` (strahl): the BVH-to-texture encoder
(`bvhToTextures` and its node-accessor helpers), the compute-dispatch sizing,
and the frame-driver loop.

Modelling conventions:
* A JavaScript `ArrayBuffer` is a byte length together with a byte map; the
  `Uint16Array` / `Uint32Array` views over it are little-endian recompositions
  of those bytes, so the aliasing between the 16-bit and 32-bit views of a
  node record is exact.
* A `Float32Array` element is represented by its 32-bit pattern (the encoder
  only copies float elements verbatim, so no arithmetic interpretation of the
  bits is ever needed); a zero-initialised element is the pattern `0`.
* JavaScript typed arrays are zero-initialised at construction and silently
  discard out-of-range writes; `JSTypedArray` / `jsSet` model exactly that.
* `Math.ceil (Math.sqrt n)` on a natural number is `ceilSqrt n`; for
  `Math.ceil (Math.sqrt (n / 2))` note that an integer `k` satisfies
  `k ≥ √(n/2)` iff `k ≥ √⌈n/2⌉`, so it is `ceilSqrt ((n + 1) / 2)`.
* Storing into a `Uint32Array` applies ToUint32 (truncation); in particular
  storing the fractional `4 * rightNode / 32` yields exactly Nat division.
-/

/-- A JavaScript typed array: fixed length, zero-initialised, out-of-range
writes discarded.  Element values are the stored 32-bit patterns. -/
structure JSTypedArray where
  len : Nat
  get : Nat → Nat

/-- A freshly constructed typed array of length `n` (all elements zero). -/
def jsZeroArray (n : Nat) : JSTypedArray :=
  { len := n, get := fun _ => 0 }

/-- Store `v` at index `i`; a write beyond the length is discarded, as in
JavaScript typed arrays. -/
def jsSet (a : JSTypedArray) (i v : Nat) : JSTypedArray :=
  if i < a.len then { len := a.len, get := fun j => if j = i then v else a.get j } else a

/-- A JavaScript `ArrayBuffer`: a byte length and the byte at each index
(taken mod 256, so every read is an 8-bit value). -/
structure ArrayBuffer where
  byteLength : Nat
  data : Nat → Nat

/-- The byte stored at index `i` of the buffer. -/
def byteAt (r : ArrayBuffer) (i : Nat) : Nat := r.data i % 256

/-- The `Uint16Array` view of the buffer at element index `k`
(little-endian). -/
def uint16At (r : ArrayBuffer) (k : Nat) : Nat :=
  byteAt r (2 * k) + 2 ^ 8 * byteAt r (2 * k + 1)

/-- The `Uint32Array` view of the buffer at element index `k`
(little-endian). -/
def uint32At (r : ArrayBuffer) (k : Nat) : Nat :=
  byteAt r (4 * k) + 2 ^ 8 * byteAt r (4 * k + 1) +
    2 ^ 16 * byteAt r (4 * k + 2) + 2 ^ 24 * byteAt r (4 * k + 3)

/-- The `Float32Array` view of the buffer at element index `k`, represented by
the 32-bit pattern of the float (same bytes as `uint32At`). -/
def float32BitsAt (r : ArrayBuffer) (k : Nat) : Nat := uint32At r k

/-- Build constant from `src/main.ts`: `const BYTES_PER_NODE = 6 * 4 + 4 + 4`. -/
def BYTES_PER_NODE : Nat := 6 * 4 + 4 + 4

/-- `isLeaf(n16, uint16Array)`: `uint16Array[n16 + 15] === 0xffff`. -/
def isLeaf (n16 : Nat) (r : ArrayBuffer) : Bool :=
  uint16At r (n16 + 15) == 0xffff

/-- `getAtOffset(n32, uint32Array)`: `uint32Array[n32 + 6]`. -/
def getAtOffset (n32 : Nat) (r : ArrayBuffer) : Nat := uint32At r (n32 + 6)

/-- `getCount(n16, uint16Array)`: `uint16Array[n16 + 14]`. -/
def getCount (n16 : Nat) (r : ArrayBuffer) : Nat := uint16At r (n16 + 14)

/-- `getLeftNode(n32)`: `n32 + 8`. -/
def getLeftNode (n32 : Nat) : Nat := n32 + 8

/-- `getRightNode(n32, uint32Array)`: `uint32Array[n32 + 6]`. -/
def getRightNode (n32 : Nat) (r : ArrayBuffer) : Nat := uint32At r (n32 + 6)

/-- `getSplitAxis(n32, uint32Array)`: `uint32Array[n32 + 7]`. -/
def getSplitAxis (n32 : Nat) (r : ArrayBuffer) : Nat := uint32At r (n32 + 7)

/-- `getBoundingDataIndex(n32)`: `n32`. -/
def getBoundingDataIndex (n32 : Nat) : Nat := n32

/-- Nat model of `Math.ceil (Math.sqrt n)` for a natural argument. -/
def ceilSqrt (n : Nat) : Nat :=
  if Nat.sqrt n * Nat.sqrt n = n then Nat.sqrt n else Nat.sqrt n + 1

/-- Result record of `bvhToTextures`. -/
structure BvhTextures where
  boundsArray : JSTypedArray
  contentsArray : JSTypedArray
  boundsDimension : Nat
  contentsDimension : Nat

/-- Body of one iteration of the `for (let i = 0; i < nodeCount; i++)` loop of
`bvhToTextures`, updating the pair (boundsArray, contentsArray).  The inner
`for (let b = 0; b < 3; b++)` loop is unrolled (b = 0, 1, 2, in source order:
min component then max component for each `b`). -/
def encodeNode (r : ArrayBuffer) (i : Nat) (arrs : JSTypedArray × JSTypedArray) :
    JSTypedArray × JSTypedArray :=
  let nodeIndex32 := i * BYTES_PER_NODE / 4
  let nodeIndex16 := nodeIndex32 * 2
  let boundsIndex := getBoundingDataIndex nodeIndex32
  let ba := arrs.1
  let ba := jsSet ba (8 * i + 0 + 0) (float32BitsAt r (boundsIndex + 0 + 0))
  let ba := jsSet ba (8 * i + 4 + 0) (float32BitsAt r (boundsIndex + 3 + 0))
  let ba := jsSet ba (8 * i + 0 + 1) (float32BitsAt r (boundsIndex + 0 + 1))
  let ba := jsSet ba (8 * i + 4 + 1) (float32BitsAt r (boundsIndex + 3 + 1))
  let ba := jsSet ba (8 * i + 0 + 2) (float32BitsAt r (boundsIndex + 0 + 2))
  let ba := jsSet ba (8 * i + 4 + 2) (float32BitsAt r (boundsIndex + 3 + 2))
  let ca := arrs.2
  if isLeaf nodeIndex16 r then
    let count := getCount nodeIndex16 r
    let offset := getAtOffset nodeIndex32 r
    let mergedLeafCount := 0xffff0000 ||| count
    let ca := jsSet ca (i * 2 + 0) mergedLeafCount
    let ca := jsSet ca (i * 2 + 1) offset
    (ba, ca)
  else
    let rightIndex := 4 * getRightNode nodeIndex32 r / BYTES_PER_NODE
    let splitAxis := getSplitAxis nodeIndex32 r
    let ca := jsSet ca (i * 2 + 0) splitAxis
    let ca := jsSet ca (i * 2 + 1) rightIndex
    (ba, ca)

/-- The encoder loop: process nodes `0, 1, …, n - 1` in storage order. -/
def encodeLoop (r : ArrayBuffer) (init : JSTypedArray × JSTypedArray) :
    Nat → JSTypedArray × JSTypedArray
  | 0 => init
  | k + 1 => encodeNode r k (encodeLoop r init k)

/-- The single-root branch of `bvhToTextures` (lines 70–117 of the source):
dimension computation, zero-initialised array allocation, and the encode
loop. -/
def encodeRoot (root : ArrayBuffer) : BvhTextures :=
  let nodeCount := root.byteLength / BYTES_PER_NODE
  let boundsDimension := 2 * ceilSqrt ((nodeCount + 1) / 2)
  let contentsDimension := ceilSqrt nodeCount
  let arrays := encodeLoop root
    (jsZeroArray (4 * boundsDimension * boundsDimension),
     jsZeroArray (2 * contentsDimension * contentsDimension)) nodeCount
  { boundsArray := arrays.1
    contentsArray := arrays.2
    boundsDimension := boundsDimension
    contentsDimension := contentsDimension }

/-- `bvhToTextures`: throws unless the BVH has exactly one root (the
`roots.length !== 1` guard), otherwise encodes the single root. -/
def bvhToTextures (roots : List ArrayBuffer) : Except String BvhTextures :=
  match roots with
  | [root] => Except.ok (encodeRoot root)
  | _ => Except.error "MeshBVHUniformStruct: Multi-root BVHs not supported."

/-- Configuration constant: `const kTextureWidth = 1024`. -/
def kTextureWidth : Nat := 1024

/-- Configuration constant: `const imageWidth = kTextureWidth`. -/
def imageWidth : Nat := kTextureWidth

/-- Configuration constant: `const maxWorkgroupDimension = 16`. -/
def maxWorkgroupDimension : Nat := 16

/-- `computePasses = Math.ceil((imageWidth * imageWidth) / maxWorkgroupDimension)`,
kept parametric in the two configuration constants. -/
def computePasses (w g : Nat) : Nat := (w * w + g - 1) / g

/-- The per-axis workgroup count actually passed to `dispatchWorkgroups`:
`Math.sqrt(computePasses)`, to which WebGPU applies ToUint32, i.e. truncation
toward zero — hence the floor square root. -/
def dispatchSide (w g : Nat) : Nat := Nat.sqrt (computePasses w g)

/-- Observable events of one invocation of the `render` closure, in the order
the source sequences them (lines 680–703). -/
inductive FrameEvent where
  | submit
  | mapRequested
  | mapResolved
  | timingLog
  | unmap
  | scheduleNext
deriving DecidableEq

/-- Event trace of one `render` invocation.  `unmapped` is the
`timestampQueryResultBuffer.mapState === "unmapped"` test at line 686;
`mapResolves` tells whether the awaited `mapAsync` promise resolves — if it
rejects, the exception propagates out of the async function and nothing after
the `await` runs (no timing log, no unmap, no `requestAnimationFrame`). -/
def render (unmapped : Bool) (mapResolves : Bool) (frame TARGET_FRAMES : Nat) :
    List FrameEvent :=
  [FrameEvent.submit] ++
    (if unmapped then
      [FrameEvent.mapRequested] ++
        (if mapResolves then
          [FrameEvent.mapResolved, FrameEvent.timingLog, FrameEvent.unmap] ++
            (if frame < TARGET_FRAMES then [FrameEvent.scheduleNext] else [])
        else [])
    else if frame < TARGET_FRAMES then [FrameEvent.scheduleNext] else [])

/-- Test fixture: a 64-byte (two-node) buffer shaped like the degenerate BVH
of the spec's end-to-end scenario — node 0 internal (split axis 0, right child
stored as 32-bit-word offset 8, i.e. node 1), node 1 a leaf with triangle
count 2 and offset 0. -/
def sampleRoot : ArrayBuffer :=
  { byteLength := 64
    data := fun i =>
      if i = 24 then 8
      else if i = 60 then 2
      else if i = 62 then 255
      else if i = 63 then 255
      else 0 }

/-- The encoder output on `sampleRoot` (total: `bvhToTextures` succeeds on a
single-root list, so the error branch below is dead). -/
def sampleOut : BvhTextures :=
  match bvhToTextures [sampleRoot] with
  | Except.ok t => t
  | Except.error _ =>
      { boundsArray := jsZeroArray 0
        contentsArray := jsZeroArray 0
        boundsDimension := 0
        contentsDimension := 0 }

/-- Configuration constant: `let TARGET_FRAMES = 0`. -/
def TARGET_FRAMES : Nat := 0

/-- Number of times the `render` closure runs when started with counter value
`frame`: the closure runs once, and reschedules itself (incrementing the
counter) exactly when `frame < target` (lines 698–703). -/
def renderRuns (frame target : Nat) : Nat :=
  if frame < target then 1 + renderRuns (frame + 1) target else 1
termination_by target - frame
decreasing_by omega

/-! ### Helper lemmas about the array model -/

theorem jsSet_len (a : JSTypedArray) (i v : Nat) : (jsSet a i v).len = a.len := by
  unfold jsSet; split <;> rfl

theorem jsSet_get_of_ne (a : JSTypedArray) (i v j : Nat) (h : j ≠ i) :
    (jsSet a i v).get j = a.get j := by
  unfold jsSet; split
  · simp [h]
  · rfl

theorem jsSet_get_self (a : JSTypedArray) (i v : Nat) (h : i < a.len) :
    (jsSet a i v).get i = v := by
  unfold jsSet; rw [if_pos h]; simp

/-! ### Helper lemmas about byte views -/

theorem byteAt_lt (r : ArrayBuffer) (i : Nat) : byteAt r i < 256 :=
  Nat.mod_lt _ (by norm_num)

theorem uint16At_lt (r : ArrayBuffer) (k : Nat) : uint16At r k < 65536 := by
  have h0 := byteAt_lt r (2 * k)
  have h1 := byteAt_lt r (2 * k + 1)
  unfold uint16At
  omega

/-! ### Helper lemmas about `ceilSqrt` -/

theorem ceilSqrt_sq_ge (n : Nat) : n ≤ ceilSqrt n * ceilSqrt n := by
  unfold ceilSqrt; split
  · omega
  · have h := Nat.lt_succ_sqrt n
    rw [Nat.succ_eq_add_one] at h
    omega

theorem ceilSqrt_le_of_sq_ge (n k : Nat) (h : n ≤ k * k) : ceilSqrt n ≤ k := by
  unfold ceilSqrt; split
  · have hs : Nat.sqrt n ≤ Nat.sqrt (k * k) := Nat.sqrt_le_sqrt h
    rw [Nat.sqrt_eq] at hs
    exact hs
  · rename_i hne
    by_contra hk
    have hks : k ≤ Nat.sqrt n := by omega
    have h1 : k * k ≤ Nat.sqrt n * Nat.sqrt n := Nat.mul_le_mul hks hks
    have h2 := Nat.sqrt_le n
    omega

theorem ceilSqrt_eval (n a : Nat) (h1 : n ≤ a * a)
    (h2 : a = 0 ∨ (a - 1) * (a - 1) < n) : ceilSqrt n = a := by
  have hub := ceilSqrt_le_of_sq_ge n a h1
  have hcc := ceilSqrt_sq_ge n
  rcases h2 with h2 | h2
  · subst h2
    omega
  · by_contra hne
    have hlt : ceilSqrt n ≤ a - 1 := by omega
    have hm : ceilSqrt n * ceilSqrt n ≤ (a - 1) * (a - 1) := Nat.mul_le_mul hlt hlt
    omega

/-! ### Bitwise helper lemmas -/

/-! ### Per-node lemmas about `encodeNode` -/

theorem nodeIndex32_eq (i : Nat) : i * BYTES_PER_NODE / 4 = 8 * i := by
  unfold BYTES_PER_NODE; omega

theorem encodeNode_fst_len (r : ArrayBuffer) (i : Nat) (a : JSTypedArray × JSTypedArray) :
    (encodeNode r i a).1.len = a.1.len := by
  simp only [encodeNode]
  split <;> simp [jsSet_len]

theorem encodeNode_snd_len (r : ArrayBuffer) (i : Nat) (a : JSTypedArray × JSTypedArray) :
    (encodeNode r i a).2.len = a.2.len := by
  simp only [encodeNode]
  split <;> simp [jsSet_len]

theorem encodeNode_contents_get_of_ne (r : ArrayBuffer) (i : Nat)
    (a : JSTypedArray × JSTypedArray) (j : Nat) (h0 : j ≠ i * 2) (h1 : j ≠ i * 2 + 1) :
    (encodeNode r i a).2.get j = a.2.get j := by
  simp only [encodeNode]
  split <;>
    · simp only []
      rw [jsSet_get_of_ne _ _ _ _ (by omega), jsSet_get_of_ne _ _ _ _ (by omega)]

theorem encodeNode_bounds_get_of_ne (r : ArrayBuffer) (i : Nat)
    (a : JSTypedArray × JSTypedArray) (j : Nat)
    (h : j < 8 * i ∨ 8 * i + 8 ≤ j ∨ j = 8 * i + 3 ∨ j = 8 * i + 7) :
    (encodeNode r i a).1.get j = a.1.get j := by
  simp only [encodeNode]
  split <;>
    · simp only []
      rw [jsSet_get_of_ne _ _ _ _ (by omega), jsSet_get_of_ne _ _ _ _ (by omega),
        jsSet_get_of_ne _ _ _ _ (by omega), jsSet_get_of_ne _ _ _ _ (by omega),
        jsSet_get_of_ne _ _ _ _ (by omega), jsSet_get_of_ne _ _ _ _ (by omega)]

theorem encodeNode_contents_get (r : ArrayBuffer) (i : Nat)
    (a : JSTypedArray × JSTypedArray) (hlen : i * 2 + 1 < a.2.len) :
    ((encodeNode r i a).2.get (i * 2) =
      (if isLeaf (16 * i) r then 0xffff0000 ||| getCount (16 * i) r
       else getSplitAxis (8 * i) r)) ∧
    ((encodeNode r i a).2.get (i * 2 + 1) =
      (if isLeaf (16 * i) r then getAtOffset (8 * i) r
       else 4 * getRightNode (8 * i) r / BYTES_PER_NODE)) := by
  have h16 : 8 * i * 2 = 16 * i := by omega
  simp only [encodeNode, nodeIndex32_eq, h16, Nat.add_zero]
  split <;>
    · dsimp only
      constructor
      · rw [jsSet_get_of_ne _ _ _ _ (by omega),
          jsSet_get_self _ _ _ (by omega)]
      · rw [jsSet_get_self _ _ _ (by rw [jsSet_len]; omega)]

theorem encodeNode_bounds_get (r : ArrayBuffer) (i : Nat)
    (a : JSTypedArray × JSTypedArray) (hlen : 8 * i + 6 < a.1.len) :
    ((encodeNode r i a).1.get (8 * i) = float32BitsAt r (8 * i)) ∧
    ((encodeNode r i a).1.get (8 * i + 1) = float32BitsAt r (8 * i + 1)) ∧
    ((encodeNode r i a).1.get (8 * i + 2) = float32BitsAt r (8 * i + 2)) ∧
    ((encodeNode r i a).1.get (8 * i + 4) = float32BitsAt r (8 * i + 3)) ∧
    ((encodeNode r i a).1.get (8 * i + 5) = float32BitsAt r (8 * i + 4)) ∧
    ((encodeNode r i a).1.get (8 * i + 6) = float32BitsAt r (8 * i + 5)) := by
  have e45 : 8 * i + 4 + 1 = 8 * i + 5 := by omega
  have e46 : 8 * i + 4 + 2 = 8 * i + 6 := by omega
  have e34 : 8 * i + 3 + 1 = 8 * i + 4 := by omega
  have e35 : 8 * i + 3 + 2 = 8 * i + 5 := by omega
  simp only [encodeNode, nodeIndex32_eq, getBoundingDataIndex, Nat.add_zero,
    e45, e46, e34, e35]
  refine ⟨?_, ?_, ?_, ?_, ?_, ?_⟩ <;>
    · split <;>
        · dsimp only
          first
          | (rw [jsSet_get_of_ne _ _ _ _ (by omega), jsSet_get_of_ne _ _ _ _ (by omega),
              jsSet_get_of_ne _ _ _ _ (by omega), jsSet_get_of_ne _ _ _ _ (by omega),
              jsSet_get_of_ne _ _ _ _ (by omega),
              jsSet_get_self _ _ _ (by omega)])
          | (rw [jsSet_get_of_ne _ _ _ _ (by omega), jsSet_get_of_ne _ _ _ _ (by omega),
              jsSet_get_of_ne _ _ _ _ (by omega), jsSet_get_of_ne _ _ _ _ (by omega),
              jsSet_get_self _ _ _ (by simp only [jsSet_len]; omega)])
          | (rw [jsSet_get_of_ne _ _ _ _ (by omega), jsSet_get_of_ne _ _ _ _ (by omega),
              jsSet_get_of_ne _ _ _ _ (by omega),
              jsSet_get_self _ _ _ (by simp only [jsSet_len]; omega)])
          | (rw [jsSet_get_of_ne _ _ _ _ (by omega), jsSet_get_of_ne _ _ _ _ (by omega),
              jsSet_get_self _ _ _ (by simp only [jsSet_len]; omega)])
          | (rw [jsSet_get_of_ne _ _ _ _ (by omega),
              jsSet_get_self _ _ _ (by simp only [jsSet_len]; omega)])
          | (rw [jsSet_get_self _ _ _ (by simp only [jsSet_len]; omega)])

/-! ### Lemmas about the encoder loop -/

theorem encodeLoop_fst_len (r : ArrayBuffer) (init : JSTypedArray × JSTypedArray) :
    ∀ n, (encodeLoop r init n).1.len = init.1.len
  | 0 => rfl
  | n + 1 => by
      rw [encodeLoop, encodeNode_fst_len, encodeLoop_fst_len r init n]

theorem encodeLoop_snd_len (r : ArrayBuffer) (init : JSTypedArray × JSTypedArray) :
    ∀ n, (encodeLoop r init n).2.len = init.2.len
  | 0 => rfl
  | n + 1 => by
      rw [encodeLoop, encodeNode_snd_len, encodeLoop_snd_len r init n]

theorem encodeLoop_contents_get (r : ArrayBuffer) (init : JSTypedArray × JSTypedArray)
    (n : Nat) (hlen : 2 * n ≤ init.2.len) :
    ∀ i, i < n →
      ((encodeLoop r init n).2.get (2 * i) =
        (if isLeaf (16 * i) r then 0xffff0000 ||| getCount (16 * i) r
         else getSplitAxis (8 * i) r)) ∧
      ((encodeLoop r init n).2.get (2 * i + 1) =
        (if isLeaf (16 * i) r then getAtOffset (8 * i) r
         else 4 * getRightNode (8 * i) r / BYTES_PER_NODE)) := by
  induction n with
  | zero => omega
  | succ m ih =>
    intro i hi
    rcases Nat.lt_or_ge i m with him | him
    · have hu := encodeNode_contents_get_of_ne r m (encodeLoop r init m)
      rw [encodeLoop, hu (2 * i) (by omega) (by omega), hu (2 * i + 1) (by omega) (by omega)]
      exact ih (by omega) i him
    · have hieq : i = m := by omega
      subst hieq
      have hsnd : i * 2 + 1 < (encodeLoop r init i).2.len := by
        rw [encodeLoop_snd_len]; omega
      have h2 : 2 * i = i * 2 := by omega
      rw [encodeLoop, h2]
      exact encodeNode_contents_get r i (encodeLoop r init i) hsnd

theorem encodeLoop_bounds_get (r : ArrayBuffer) (init : JSTypedArray × JSTypedArray)
    (n : Nat) (hlen : 8 * n ≤ init.1.len) :
    ∀ i, i < n →
      ((encodeLoop r init n).1.get (8 * i) = float32BitsAt r (8 * i)) ∧
      ((encodeLoop r init n).1.get (8 * i + 1) = float32BitsAt r (8 * i + 1)) ∧
      ((encodeLoop r init n).1.get (8 * i + 2) = float32BitsAt r (8 * i + 2)) ∧
      ((encodeLoop r init n).1.get (8 * i + 4) = float32BitsAt r (8 * i + 3)) ∧
      ((encodeLoop r init n).1.get (8 * i + 5) = float32BitsAt r (8 * i + 4)) ∧
      ((encodeLoop r init n).1.get (8 * i + 6) = float32BitsAt r (8 * i + 5)) := by
  induction n with
  | zero => omega
  | succ m ih =>
    intro i hi
    rcases Nat.lt_or_ge i m with him | him
    · have hu := encodeNode_bounds_get_of_ne r m (encodeLoop r init m)
      rw [encodeLoop, hu (8 * i) (by omega), hu (8 * i + 1) (by omega),
        hu (8 * i + 2) (by omega), hu (8 * i + 4) (by omega),
        hu (8 * i + 5) (by omega), hu (8 * i + 6) (by omega)]
      exact ih (by omega) i him
    · have hieq : i = m := by omega
      subst hieq
      have hfst : 8 * i + 6 < (encodeLoop r init i).1.len := by
        rw [encodeLoop_fst_len]; omega
      rw [encodeLoop]
      exact encodeNode_bounds_get r i (encodeLoop r init i) hfst

theorem encodeLoop_bounds_get_untouched (r : ArrayBuffer)
    (init : JSTypedArray × JSTypedArray) (n : Nat) :
    ∀ j, (8 * n ≤ j ∨ j % 8 = 3 ∨ j % 8 = 7) →
      (encodeLoop r init n).1.get j = init.1.get j := by
  induction n with
  | zero => intro j _; rfl
  | succ m ih =>
    intro j hj
    rw [encodeLoop, encodeNode_bounds_get_of_ne r m _ j (by omega)]
    exact ih j (by omega)

theorem encodeLoop_contents_get_untouched (r : ArrayBuffer)
    (init : JSTypedArray × JSTypedArray) (n : Nat) :
    ∀ j, 2 * n ≤ j → (encodeLoop r init n).2.get j = init.2.get j := by
  induction n with
  | zero => intro j _; rfl
  | succ m ih =>
    intro j hj
    rw [encodeLoop, encodeNode_contents_get_of_ne r m _ j (by omega) (by omega)]
    exact ih j (by omega)

/-! ### Unfolding the encoder on a single root -/

theorem jsZeroArray_len (n : Nat) : (jsZeroArray n).len = n := rfl

theorem jsZeroArray_get (n j : Nat) : (jsZeroArray n).get j = 0 := rfl

theorem bvhToTextures_singleton (r : ArrayBuffer) :
    bvhToTextures [r] = Except.ok (encodeRoot r) := rfl

theorem bvhToTextures_ok_inv (r : ArrayBuffer) (out : BvhTextures)
    (hout : bvhToTextures [r] = Except.ok out) : out = encodeRoot r := by
  rw [bvhToTextures_singleton] at hout
  injection hout with h
  exact h.symm

theorem encodeRoot_eq (r : ArrayBuffer) (n : Nat)
    (hbytes : r.byteLength = BYTES_PER_NODE * n) :
    encodeRoot r =
      { boundsArray :=
          (encodeLoop r
            (jsZeroArray (4 * (2 * ceilSqrt ((n + 1) / 2)) * (2 * ceilSqrt ((n + 1) / 2))),
             jsZeroArray (2 * ceilSqrt n * ceilSqrt n)) n).1
        contentsArray :=
          (encodeLoop r
            (jsZeroArray (4 * (2 * ceilSqrt ((n + 1) / 2)) * (2 * ceilSqrt ((n + 1) / 2))),
             jsZeroArray (2 * ceilSqrt n * ceilSqrt n)) n).2
        boundsDimension := 2 * ceilSqrt ((n + 1) / 2)
        contentsDimension := ceilSqrt n } := by
  have hn : r.byteLength / BYTES_PER_NODE = n := by
    rw [hbytes]
    exact Nat.mul_div_cancel_left n (by decide)
  simp only [encodeRoot, hn]

theorem boundsInit_len_ge (n : Nat) :
    8 * n ≤ 4 * (2 * ceilSqrt ((n + 1) / 2)) * (2 * ceilSqrt ((n + 1) / 2)) := by
  have hc := ceilSqrt_sq_ge ((n + 1) / 2)
  have he : 4 * (2 * ceilSqrt ((n + 1) / 2)) * (2 * ceilSqrt ((n + 1) / 2)) =
      16 * (ceilSqrt ((n + 1) / 2) * ceilSqrt ((n + 1) / 2)) := by ring
  omega

theorem contentsInit_len_ge (n : Nat) : 2 * n ≤ 2 * ceilSqrt n * ceilSqrt n := by
  have hc := ceilSqrt_sq_ge n
  have he : 2 * ceilSqrt n * ceilSqrt n = 2 * (ceilSqrt n * ceilSqrt n) := by ring
  omega

/-! ### Claim theorems -/

/-- C1: for a single-root node buffer of `n` nodes, the encoder writes, for
each node index `i` in storage order, the node's min bounds into
`boundsArray[8i .. 8i+2]` and its max bounds into `boundsArray[8i+4 .. 8i+6]`
(float elements `8i .. 8i+2` and `8i+3 .. 8i+5` of the node record), and into
the contents pair: if the node is a leaf, `contentsArray[2i] =
0xffff0000 ||| triangleCount` and `contentsArray[2i+1] = triangleOffset`; if
internal, `contentsArray[2i] = splitAxis` and `contentsArray[2i+1]` = the
right child's byte offset (`4 * getRightNode`) divided by the node stride,
i.e. its node index in array-index space. -/
theorem encoder_node_layout (r : ArrayBuffer) (n : Nat) (out : BvhTextures)
    (hbytes : r.byteLength = BYTES_PER_NODE * n)
    (hout : bvhToTextures [r] = Except.ok out) (i : Nat) (hi : i < n) :
    (out.boundsArray.get (8 * i) = float32BitsAt r (8 * i) ∧
     out.boundsArray.get (8 * i + 1) = float32BitsAt r (8 * i + 1) ∧
     out.boundsArray.get (8 * i + 2) = float32BitsAt r (8 * i + 2) ∧
     out.boundsArray.get (8 * i + 4) = float32BitsAt r (8 * i + 3) ∧
     out.boundsArray.get (8 * i + 5) = float32BitsAt r (8 * i + 4) ∧
     out.boundsArray.get (8 * i + 6) = float32BitsAt r (8 * i + 5)) ∧
    (isLeaf (16 * i) r = true →
      out.contentsArray.get (2 * i) = (0xffff0000 ||| getCount (16 * i) r) ∧
      out.contentsArray.get (2 * i + 1) = getAtOffset (8 * i) r) ∧
    (isLeaf (16 * i) r = false →
      out.contentsArray.get (2 * i) = getSplitAxis (8 * i) r ∧
      out.contentsArray.get (2 * i + 1) = 4 * getRightNode (8 * i) r / BYTES_PER_NODE) := by
  rw [bvhToTextures_ok_inv r out hout, encodeRoot_eq r n hbytes]
  have hb := encodeLoop_bounds_get r
    (jsZeroArray (4 * (2 * ceilSqrt ((n + 1) / 2)) * (2 * ceilSqrt ((n + 1) / 2))),
     jsZeroArray (2 * ceilSqrt n * ceilSqrt n)) n
    (by simpa [jsZeroArray_len] using boundsInit_len_ge n) i hi
  have hcget := encodeLoop_contents_get r
    (jsZeroArray (4 * (2 * ceilSqrt ((n + 1) / 2)) * (2 * ceilSqrt ((n + 1) / 2))),
     jsZeroArray (2 * ceilSqrt n * ceilSqrt n)) n
    (by simpa [jsZeroArray_len] using contentsInit_len_ge n) i hi
  refine ⟨hb, ?_, ?_⟩
  · intro hL
    rw [hL] at hcget
    simpa using hcget
  · intro hL
    rw [hL] at hcget
    simpa using hcget

/-- Concrete instantiation of `encoder_node_layout` at `sampleRoot` (two
nodes), node index 1, which is a leaf with triangle count 2 and offset 0. -/
theorem encoder_node_layout_witness :
    sampleRoot.byteLength = BYTES_PER_NODE * 2 ∧
    bvhToTextures [sampleRoot] = Except.ok sampleOut ∧
    (1 : Nat) < 2 ∧
    (sampleOut.contentsArray.get 2 = (0xffff0000 ||| getCount 16 sampleRoot) ∧
     sampleOut.contentsArray.get 3 = getAtOffset 8 sampleRoot) :=
  ⟨rfl, rfl, by decide,
    (encoder_node_layout sampleRoot 2 sampleOut rfl rfl 1 (by decide)).2.1 (by decide)⟩

theorem lor_land_absorb (a b : Nat) : (a ||| b) &&& a = a := by
  apply Nat.eq_of_testBit_eq
  intro j
  rw [Nat.testBit_land, Nat.testBit_lor]
  cases a.testBit j <;> cases b.testBit j <;> rfl

theorem land_hi16_eq_zero (c : Nat) (hc : c < 65536) : c &&& 0xffff0000 = 0 := by
  apply Nat.eq_of_testBit_eq
  intro j
  rw [Nat.testBit_land, Nat.zero_testBit]
  rcases Nat.lt_or_ge j 16 with hj | hj
  · have hm : Nat.testBit 0xffff0000 j = false := by interval_cases j <;> decide
    rw [hm, Bool.and_false]
  · have hcj : Nat.testBit c j = false := by
      apply Nat.testBit_eq_false_of_lt
      calc c < 65536 := hc
        _ = 2 ^ 16 := by norm_num
        _ ≤ 2 ^ j := Nat.pow_le_pow_right (by norm_num) hj
    rw [hcj, Bool.false_and]

/-- C2: for every encoded node index `i < n`, the mask test
`contentsArray[2i] &&& 0xffff0000 == 0xffff0000` holds iff the source node is
a leaf (its 16-bit word at the sentinel offset equals `0xffff`), under the
claim's precondition that an internal node's split-axis word is below
`0x10000`.  No other channel is needed: the test is decided entirely by the
first word of the contents pair. -/
theorem leaf_discrimination (r : ArrayBuffer) (n : Nat) (out : BvhTextures)
    (hbytes : r.byteLength = BYTES_PER_NODE * n)
    (hout : bvhToTextures [r] = Except.ok out) (i : Nat) (hi : i < n)
    (hax : isLeaf (16 * i) r = false → getSplitAxis (8 * i) r < 0x10000) :
    ((out.contentsArray.get (2 * i) &&& 0xffff0000) = 0xffff0000) ↔
      isLeaf (16 * i) r = true := by
  rw [bvhToTextures_ok_inv r out hout, encodeRoot_eq r n hbytes]
  have hcget := (encodeLoop_contents_get r
    (jsZeroArray (4 * (2 * ceilSqrt ((n + 1) / 2)) * (2 * ceilSqrt ((n + 1) / 2))),
     jsZeroArray (2 * ceilSqrt n * ceilSqrt n)) n
    (by simpa [jsZeroArray_len] using contentsInit_len_ge n) i hi).1
  cases hL : isLeaf (16 * i) r with
  | true =>
    rw [hL] at hcget
    simp only [if_true, if_pos] at hcget
    dsimp only
    rw [hcget, lor_land_absorb]
    simp
  | false =>
    rw [hL] at hcget
    simp only [Bool.false_eq_true, if_false] at hcget
    dsimp only
    rw [hcget, land_hi16_eq_zero (getSplitAxis (8 * i) r) (hax hL)]
    simp

/-- Concrete instantiation of `leaf_discrimination` at `sampleRoot`, node
index 0, which is internal with split axis 0. -/
theorem leaf_discrimination_witness :
    sampleRoot.byteLength = BYTES_PER_NODE * 2 ∧
    bvhToTextures [sampleRoot] = Except.ok sampleOut ∧
    (0 : Nat) < 2 ∧
    (((sampleOut.contentsArray.get 0 &&& 0xffff0000) = 0xffff0000) ↔
      isLeaf 0 sampleRoot = true) :=
  ⟨rfl, rfl, by decide,
    leaf_discrimination sampleRoot 2 sampleOut rfl rfl 0 (by decide) (by decide)⟩

/-- C9: all elements of the returned arrays that are not node data are zero:
`boundsArray` beyond index `8n`, `contentsArray` beyond index `2n`, and the
fourth component of every min and max group (`8i+3` and `8i+7`). -/
theorem encoder_padding_zero (r : ArrayBuffer) (n : Nat) (out : BvhTextures)
    (hbytes : r.byteLength = BYTES_PER_NODE * n)
    (hout : bvhToTextures [r] = Except.ok out) :
    (∀ j, 8 * n ≤ j → out.boundsArray.get j = 0) ∧
    (∀ j, 2 * n ≤ j → out.contentsArray.get j = 0) ∧
    (∀ i, i < n → out.boundsArray.get (8 * i + 3) = 0 ∧
      out.boundsArray.get (8 * i + 7) = 0) := by
  rw [bvhToTextures_ok_inv r out hout, encodeRoot_eq r n hbytes]
  refine ⟨?_, ?_, ?_⟩
  · intro j hj
    dsimp only
    rw [encodeLoop_bounds_get_untouched r _ n j (Or.inl hj), jsZeroArray_get]
  · intro j hj
    dsimp only
    rw [encodeLoop_contents_get_untouched r _ n j hj, jsZeroArray_get]
  · intro i _
    dsimp only
    constructor
    · rw [encodeLoop_bounds_get_untouched r _ n (8 * i + 3) (by omega), jsZeroArray_get]
    · rw [encodeLoop_bounds_get_untouched r _ n (8 * i + 7) (by omega), jsZeroArray_get]

/-- Concrete instantiation of `encoder_padding_zero` at `sampleRoot`: the
first padding element of each kind is zero. -/
theorem encoder_padding_zero_witness :
    sampleRoot.byteLength = BYTES_PER_NODE * 2 ∧
    sampleOut.boundsArray.get 16 = 0 ∧
    sampleOut.contentsArray.get 4 = 0 ∧
    sampleOut.boundsArray.get 3 = 0 ∧
    sampleOut.boundsArray.get 7 = 0 :=
  ⟨rfl,
    (encoder_padding_zero sampleRoot 2 sampleOut rfl rfl).1 16 (by decide),
    (encoder_padding_zero sampleRoot 2 sampleOut rfl rfl).2.1 4 (by decide),
    ((encoder_padding_zero sampleRoot 2 sampleOut rfl rfl).2.2 0 (by decide)).1,
    ((encoder_padding_zero sampleRoot 2 sampleOut rfl rfl).2.2 0 (by decide)).2⟩

/-- C4: for a single-root BVH of `n` nodes, the returned dimensions are
`contentsDimension = ceilSqrt n` (the Nat value of `ceil (sqrt n)`) with
contents length `2 * contentsDimension²`, and `boundsDimension =
2 * ceilSqrt (⌈n / 2⌉)` (the Nat value of `2 * ceil (sqrt (n / 2))`) with
bounds length `4 * boundsDimension²`; consequently `contentsDimension² ≥ n`
and `boundsDimension² ≥ ⌈n / 2⌉`, so every node fits. -/
theorem encoder_dimensions (r : ArrayBuffer) (n : Nat) (out : BvhTextures)
    (hbytes : r.byteLength = BYTES_PER_NODE * n)
    (hout : bvhToTextures [r] = Except.ok out) :
    out.contentsDimension = ceilSqrt n ∧
    out.contentsArray.len = 2 * out.contentsDimension * out.contentsDimension ∧
    out.boundsDimension = 2 * ceilSqrt ((n + 1) / 2) ∧
    out.boundsArray.len = 4 * out.boundsDimension * out.boundsDimension ∧
    n ≤ out.contentsDimension * out.contentsDimension ∧
    (n + 1) / 2 ≤ out.boundsDimension * out.boundsDimension := by
  rw [bvhToTextures_ok_inv r out hout, encodeRoot_eq r n hbytes]
  dsimp only
  rw [encodeLoop_snd_len, encodeLoop_fst_len, jsZeroArray_len, jsZeroArray_len]
  refine ⟨rfl, by ring, rfl, by ring, ceilSqrt_sq_ge n, ?_⟩
  have hc := ceilSqrt_sq_ge ((n + 1) / 2)
  have he : 2 * ceilSqrt ((n + 1) / 2) * (2 * ceilSqrt ((n + 1) / 2)) =
      4 * (ceilSqrt ((n + 1) / 2) * ceilSqrt ((n + 1) / 2)) := by ring
  omega

/-- C3: `bvhToTextures` fails with the multi-root error, producing no output,
exactly when the root list does not contain a single root; on a single root
it never raises this error. -/
theorem single_root_required (roots : List ArrayBuffer) :
    (roots.length ≠ 1 →
      bvhToTextures roots =
        Except.error "MeshBVHUniformStruct: Multi-root BVHs not supported.") ∧
    (roots.length = 1 → ∃ out, bvhToTextures roots = Except.ok out) := by
  rcases roots with _ | ⟨a, _ | ⟨b, t⟩⟩
  · exact ⟨fun _ => rfl, fun h => by simp at h⟩
  · exact ⟨fun h => absurd rfl h, fun _ => ⟨encodeRoot a, rfl⟩⟩
  · exact ⟨fun _ => rfl, fun h => by simp at h⟩

/-- Concrete instantiation of `single_root_required`: the empty root list is
rejected with the multi-root error, and a singleton list is accepted. -/
theorem single_root_required_witness :
    ([] : List ArrayBuffer).length ≠ 1 ∧
    bvhToTextures ([] : List ArrayBuffer) =
      Except.error "MeshBVHUniformStruct: Multi-root BVHs not supported." ∧
    bvhToTextures [sampleRoot] = Except.ok sampleOut :=
  ⟨by decide, (single_root_required []).1 (by decide), rfl⟩

/-- Counterexample to C5 as stated: at image width 5 and workgroup dimension
2 the dispatched side length is `Nat.sqrt (ceil (25 / 2)) = 3`, which differs
from `ceil (sqrt (25 / 2)) = 4` and under-dispatches: `3² · 2 = 18 < 25`. -/
theorem dispatch_side_counterexample :
    dispatchSide 5 2 = 3 ∧
    ceilSqrt (computePasses 5 2) = 4 ∧
    dispatchSide 5 2 * dispatchSide 5 2 * 2 < 5 * 5 := by
  have hcp : computePasses 5 2 = 13 := by norm_num [computePasses]
  have hs : Nat.sqrt 13 = 3 := by
    have h1 : 3 ≤ Nat.sqrt 13 := Nat.le_sqrt.mpr (by norm_num)
    have h2 : Nat.sqrt 13 < 4 := Nat.sqrt_lt.mpr (by norm_num)
    omega
  have hd : dispatchSide 5 2 = 3 := by rw [dispatchSide, hcp, hs]
  refine ⟨hd, ?_, by rw [hd]; norm_num⟩
  rw [hcp]
  exact ceilSqrt_eval 13 4 (by norm_num) (Or.inr (by norm_num))

/-- C5 amended: the code dispatches `Nat.sqrt (ceil (W·W / G))` workgroups
per axis (the `Math.sqrt` result is truncated by ToUint32, not rounded up);
at the repository's configured `imageWidth = 1024` and
`maxWorkgroupDimension = 16` this equals 256, which coincides with
`ceil (sqrt (W·H / G))` and satisfies both `side² · G ≥ W·H` and
`(side − 1)² · G < W·H`. -/
theorem dispatch_side_configured :
    dispatchSide imageWidth maxWorkgroupDimension = 256 ∧
    ceilSqrt (computePasses imageWidth maxWorkgroupDimension) = 256 ∧
    256 * 256 * maxWorkgroupDimension ≥ imageWidth * imageWidth ∧
    255 * 255 * maxWorkgroupDimension < imageWidth * imageWidth := by
  have hcp : computePasses imageWidth maxWorkgroupDimension = 65536 := by
    norm_num [computePasses, imageWidth, kTextureWidth, maxWorkgroupDimension]
  have hs : Nat.sqrt 65536 = 256 := by
    have h1 : 256 ≤ Nat.sqrt 65536 := Nat.le_sqrt.mpr (by norm_num)
    have h2 : Nat.sqrt 65536 < 257 := Nat.sqrt_lt.mpr (by norm_num)
    omega
  refine ⟨by rw [dispatchSide, hcp, hs], ?_, ?_, ?_⟩
  · rw [hcp]
    exact ceilSqrt_eval 65536 256 (by norm_num) (Or.inr (by norm_num))
  · norm_num [imageWidth, kTextureWidth, maxWorkgroupDimension]
  · norm_num [imageWidth, kTextureWidth, maxWorkgroupDimension]

/-- The empty (zero-node) root buffer. -/
def emptyRoot : ArrayBuffer := { byteLength := 0, data := fun _ => 0 }

/-- Counterexample to C6 as stated: on an empty node buffer the encoder does
not return a 1×1 minimum texture — the contents dimension is 0, not 1. -/
theorem empty_root_not_unit_texture :
    ¬ Except.map (fun o => o.contentsDimension) (bvhToTextures [emptyRoot]) =
      Except.ok 1 := by
  have h0 : ceilSqrt 0 = 0 := ceilSqrt_eval 0 0 (by norm_num) (Or.inl rfl)
  rw [bvhToTextures_singleton, encodeRoot_eq emptyRoot 0 rfl]
  simp [Except.map, h0]

/-- C6 amended: on an empty node buffer (`nodeCount = 0`) the encoder
performs no division by zero — the node stride is the nonzero constant 32 and
`nodeCount` evaluates to 0 — but it returns zero dimensions and empty arrays,
not a 1×1 minimum texture. -/
theorem empty_root_zero_dimensions :
    BYTES_PER_NODE = 32 ∧
    emptyRoot.byteLength / BYTES_PER_NODE = 0 ∧
    Except.map
      (fun o => (o.boundsDimension, o.contentsDimension,
        o.boundsArray.len, o.contentsArray.len))
      (bvhToTextures [emptyRoot]) = Except.ok (0, 0, 0, 0) := by
  have h0 : ceilSqrt 0 = 0 := ceilSqrt_eval 0 0 (by norm_num) (Or.inl rfl)
  refine ⟨rfl, rfl, ?_⟩
  rw [bvhToTextures_singleton, encodeRoot_eq emptyRoot 0 rfl]
  simp [Except.map, h0, encodeLoop, jsZeroArray_len]

/-- Counterexample to C7 as stated: with the timing buffer unmapped, a
resolving map, and another frame due (`frame = 0 < 1 = target`), the trace of
one `render` invocation schedules the next frame strictly after the map
resolution, timing read and unmap — the next frame's submission is sequenced
behind (not independent of) the completion of the map-and-read. -/
theorem schedule_after_readback :
    render true true 0 1 =
      [FrameEvent.submit, FrameEvent.mapRequested, FrameEvent.mapResolved,
       FrameEvent.timingLog, FrameEvent.unmap, FrameEvent.scheduleNext] ∧
    List.indexOf FrameEvent.mapResolved (render true true 0 1) <
      List.indexOf FrameEvent.scheduleNext (render true true 0 1) := by
  constructor <;> decide

/-- C7 amended: the current frame's queue submission always comes first in
the trace (the map-and-read never delays the current frame's submission), but
when a readback is in flight the next frame is scheduled only after the map
resolves, the timing is logged and the buffer unmapped. -/
theorem render_trace_order (u m : Bool) (fr t : Nat) :
    (render u m fr t).head? = some FrameEvent.submit ∧
    (u = true → m = true → fr < t →
      render u m fr t =
        [FrameEvent.submit, FrameEvent.mapRequested, FrameEvent.mapResolved,
         FrameEvent.timingLog, FrameEvent.unmap, FrameEvent.scheduleNext]) := by
  constructor
  · rfl
  · intro hu hm hft
    subst hu
    subst hm
    simp [render, hft]

/-- Concrete instantiation of `render_trace_order` at the unmapped,
successful-map, next-frame-due state. -/
theorem render_trace_order_witness :
    (render true true 0 1).head? = some FrameEvent.submit ∧
    render true true 0 1 =
      [FrameEvent.submit, FrameEvent.mapRequested, FrameEvent.mapResolved,
       FrameEvent.timingLog, FrameEvent.unmap, FrameEvent.scheduleNext] :=
  ⟨(render_trace_order true true 0 1).1,
    (render_trace_order true true 0 1).2 rfl rfl (by decide)⟩

/-- C8 (code bug): when the awaited `mapAsync` rejects in a frame whose
counter is below the target (`frame = 0 < 1 = target`), the trace of the
`render` invocation ends right after the map request — the timing log is
skipped, but contrary to the claim no next frame is scheduled either: the
rejection propagates out of the async function before the
`requestAnimationFrame` call, aborting the frame loop. -/
theorem map_failure_aborts_loop :
    render true false 0 1 = [FrameEvent.submit, FrameEvent.mapRequested] ∧
    FrameEvent.timingLog ∉ render true false 0 1 ∧
    FrameEvent.scheduleNext ∉ render true false 0 1 ∧
    (0 : Nat) < 1 := by
  refine ⟨by decide, by decide, by decide, by decide⟩

theorem renderRuns_eq (fr t : Nat) : renderRuns fr t = t - fr + 1 := by
  generalize hd : t - fr = d
  induction d generalizing fr with
  | zero =>
    rw [renderRuns, if_neg (by omega)]
  | succ k ih =>
    rw [renderRuns, if_pos (by omega), ih (fr + 1) (by omega)]
    omega

/-- C10: the frame loop is bounded by the fixed target frame count: started
at counter 0 the `render` closure runs exactly `t + 1` times (it reschedules
itself only while `frame < t`), and with the configured `TARGET_FRAMES = 0`
it runs exactly once. -/
theorem frame_loop_bounded :
    (∀ t : Nat, renderRuns 0 t = t + 1) ∧
    TARGET_FRAMES = 0 ∧
    renderRuns 0 TARGET_FRAMES = 1 := by
  refine ⟨fun t => ?_, rfl, ?_⟩
  · rw [renderRuns_eq]
    omega
  · rw [renderRuns_eq]
    rfl

/-- Concrete instantiation of `encoder_dimensions` at `sampleRoot`
(two nodes). -/
theorem encoder_dimensions_witness :
    sampleRoot.byteLength = BYTES_PER_NODE * 2 ∧
    sampleOut.contentsDimension = 2 ∧
    sampleOut.contentsArray.len = 8 ∧
    sampleOut.boundsDimension = 2 ∧
    sampleOut.boundsArray.len = 16 ∧
    2 ≤ sampleOut.contentsDimension * sampleOut.contentsDimension :=
  ⟨rfl, by
    have h := encoder_dimensions sampleRoot 2 sampleOut rfl rfl
    have hc2 : ceilSqrt 2 = 2 := ceilSqrt_eval 2 2 (by norm_num) (Or.inr (by norm_num))
    have hc1 : ceilSqrt ((2 + 1) / 2) = 1 :=
      ceilSqrt_eval 1 1 (by norm_num) (Or.inr (by norm_num))
    refine ⟨?_, ?_, ?_, ?_, h.2.2.2.2.1⟩
    · rw [h.1, hc2]
    · rw [h.2.1, h.1, hc2]
    · rw [h.2.2.1, hc1]
    · rw [h.2.2.2.1, h.2.2.1, hc1]⟩
